import Mathlib

/-!
# Verification of the lab-report analyzer and RAG pipeline

Shallow embedding of `src/backend/lab_report_analyzer.py` and
`src/rag_pipeline.py`, with theorems checking the specification's claims.

Modelling conventions:
* numeric values are `ℚ`; Python's `round(x, n)` (round half to even on
  exact values) is `pyRound`;
* Python string comparison (lexicographic by code point) is `charListLt`
  on the character lists; `sorted(...)` is insertion sort by that order;
* dict fields read with `d.get(k, default)` are `Option` fields, fields
  read with `d[k]` (which can raise `KeyError`) are `Option` fields whose
  lookup is threaded through `Except` in the raw model;
* all functions are pure, so a caller's input value is by construction
  unchanged by a call (the Python code guarantees this with `deepcopy`).
-/

/-- Python's `<` on strings, on the underlying character lists:
lexicographic comparison by code point. -/
def charListLt : List Char → List Char → Bool
  | [], [] => false
  | [], _ :: _ => true
  | _ :: _, [] => false
  | a :: as, b :: bs =>
    if a < b then true
    else if b < a then false
    else charListLt as bs

theorem charListLt_asymm :
    ∀ as bs, charListLt as bs = true → charListLt bs as = false := by
  intro as
  induction as with
  | nil =>
    intro bs h
    cases bs <;> simp [charListLt] at h ⊢
  | cons a as ih =>
    intro bs h
    cases bs with
    | nil => simp [charListLt] at h
    | cons b bs =>
      simp only [charListLt] at h ⊢
      rcases lt_trichotomy a b with hab | hab | hab
      · have hba : ¬ b < a := lt_asymm hab
        simp [hab, hba]
      · subst hab
        simp only [lt_irrefl, if_false] at h ⊢
        exact ih bs h
      · have hab' : ¬ a < b := lt_asymm hab
        simp [hab, hab'] at h

theorem charListLt_trans :
    ∀ as bs cs, charListLt as bs = true → charListLt bs cs = true →
      charListLt as cs = true := by
  intro as
  induction as with
  | nil =>
    intro bs cs hab hbc
    cases bs with
    | nil => simp [charListLt] at hab
    | cons b bs =>
      cases cs with
      | nil => simp [charListLt] at hbc
      | cons c cs => simp [charListLt]
  | cons a as ih =>
    intro bs cs hab hbc
    cases bs with
    | nil => simp [charListLt] at hab
    | cons b bs =>
      cases cs with
      | nil => simp [charListLt] at hbc
      | cons c cs =>
        simp only [charListLt] at hab hbc ⊢
        rcases lt_trichotomy a b with h1 | h1 | h1
        · rcases lt_trichotomy b c with h2 | h2 | h2
          · have h3 : a < c := lt_trans h1 h2
            simp [h3]
          · subst h2
            simp [h1]
          · rw [if_neg (lt_asymm h2), if_pos h2] at hbc
            exact absurd hbc (by simp)
        · subst h1
          rcases lt_trichotomy a c with h2 | h2 | h2
          · simp [h2]
          · subst h2
            rw [if_neg (lt_irrefl a), if_neg (lt_irrefl a)] at hab hbc ⊢
            exact ih _ _ hab hbc
          · rw [if_neg (lt_asymm h2), if_pos h2] at hbc
            exact absurd hbc (by simp)
        · rw [if_neg (lt_asymm h1), if_pos h1] at hab
          exact absurd hab (by simp)

theorem charListLt_eq_of_not_lt :
    ∀ as bs, charListLt as bs = false → charListLt bs as = false → as = bs := by
  intro as
  induction as with
  | nil =>
    intro bs h _
    cases bs with
    | nil => rfl
    | cons b bs => simp [charListLt] at h
  | cons a as ih =>
    intro bs h h'
    cases bs with
    | nil => simp [charListLt] at h'
    | cons b bs =>
      simp only [charListLt] at h h'
      rcases lt_trichotomy a b with h1 | h1 | h1
      · simp [h1] at h
      · subst h1
        simp only [lt_irrefl, if_false] at h h'
        rw [ih bs h h']
      · have h1' : ¬ a < b := lt_asymm h1
        simp [h1, h1'] at h'

/-- Python's string order `a <= b`, i.e. `not (b < a)`. -/
def strLe (a b : String) : Prop := charListLt b.data a.data = false

instance : DecidableRel strLe := fun a b =>
  inferInstanceAs (Decidable (charListLt b.data a.data = false))

instance : IsTotal String strLe := by
  constructor
  intro a b
  by_cases h : charListLt b.data a.data = true
  · right
    exact charListLt_asymm _ _ h
  · left
    exact Bool.eq_false_iff.mpr h

instance : IsTrans String strLe := by
  constructor
  intro a b c hab hbc
  unfold strLe at hab hbc ⊢
  by_cases hca : charListLt c.data a.data = true
  · exfalso
    by_cases h1 : charListLt a.data b.data = true
    · have h2 := charListLt_trans _ _ _ hca h1
      rw [h2] at hbc
      exact absurd hbc (by simp)
    · have heq : a.data = b.data :=
        charListLt_eq_of_not_lt _ _ (Bool.eq_false_iff.mpr h1) hab
      rw [← heq, hca] at hbc
      exact absurd hbc (by simp)
  · exact Bool.eq_false_iff.mpr hca

/-- Python's `sorted(...)` on a list of strings. -/
def sortStrings (l : List String) : List String := List.insertionSort strLe l

namespace LabAnalyzer

/-- A lab parameter as the analyzer accesses it: `name` and `value` are read
with `param["..."]` (present in this well-formed model), while `unit` and
`status` are read with `.get(...)` and may be absent. -/
structure LabParam where
  name : String
  value : ℚ
  unit : Option String
  reference_low : ℚ
  reference_high : ℚ
  status : Option String
  deriving Repr, DecidableEq

/-- A lab report: `patient_name` and `report_date` are read with `.get(...)`
(so may be absent), `parameters` with `.get("parameters", [])`. -/
structure LabReport where
  patient_name : Option String
  report_date : Option String
  parameters : List LabParam
  deriving Repr, DecidableEq

/-- The per-parameter body of the loop in `classify_report_statuses`:
`value > reference_high → "High"`, `elif value < reference_low → "Low"`,
`else "Normal"`. -/
def classifyParam (p : LabParam) : LabParam :=
  if p.value > p.reference_high then { p with status := some "High" }
  else if p.value < p.reference_low then { p with status := some "Low" }
  else { p with status := some "Normal" }

/-- The function `classify_report_statuses`: deep-copies the report and sets `status` on
every parameter of the copy; the original is returned untouched (the
embedding is pure, as the Python code achieves with `copy.deepcopy`). -/
def classify_report_statuses (r : LabReport) : LabReport :=
  { r with parameters := r.parameters.map classifyParam }

end LabAnalyzer

namespace LabAnalyzer

/-- C1: in a classified report, a parameter's status follows the
closed-interval policy: `High ↔ value > reference_high`,
`Low ↔ value < reference_low`, and `Normal` exactly on the closed interval,
so both boundary values classify as `Normal`. Stated for any parameter of
the input report under the spec's standing assumption
`reference_low ≤ reference_high`. -/
theorem classify_status_closed_interval (r : LabReport) (p : LabParam)
    (hp : p ∈ r.parameters)
    (h : p.reference_low ≤ p.reference_high) :
    classifyParam p ∈ (classify_report_statuses r).parameters ∧
    ((classifyParam p).status = some "High" ↔ p.value > p.reference_high) ∧
    ((classifyParam p).status = some "Low" ↔ p.value < p.reference_low) ∧
    ((classifyParam p).status = some "Normal" ↔
      p.reference_low ≤ p.value ∧ p.value ≤ p.reference_high) := by
  refine ⟨List.mem_map_of_mem classifyParam hp, ?_⟩
  unfold classifyParam
  split_ifs with h1 h2
  · refine ⟨iff_of_true rfl h1, ?_, ?_⟩
    · constructor
      · intro hs
        simp at hs
      · intro hv
        exfalso
        linarith
    · constructor
      · intro hs
        simp at hs
      · rintro ⟨-, hv⟩
        exfalso
        linarith
  · refine ⟨?_, iff_of_true rfl h2, ?_⟩
    · constructor
      · intro hs
        simp at hs
      · intro hv
        exact absurd hv h1
    · constructor
      · intro hs
        simp at hs
      · rintro ⟨hlo, -⟩
        exfalso
        linarith
  · refine ⟨?_, ?_, iff_of_true rfl ⟨not_lt.mp h2, not_lt.mp h1⟩⟩
    · constructor
      · intro hs
        simp at hs
      · intro hv
        exact absurd hv h1
    · constructor
      · intro hs
        simp at hs
      · intro hv
        exact absurd hv h2

/-- Witness for C1 at a concrete low parameter
(Hemoglobin 11.2, range [13.5, 17.5]). -/
theorem classify_status_closed_interval_witness :
    let p : LabParam := ⟨"Hemoglobin", 112/10, some "g/dL", 135/10, 175/10, none⟩
    let r : LabReport := ⟨some "A", some "2026-01-15", [p]⟩
    classifyParam p ∈ (classify_report_statuses r).parameters ∧
    ((classifyParam p).status = some "High" ↔ p.value > p.reference_high) ∧
    ((classifyParam p).status = some "Low" ↔ p.value < p.reference_low) ∧
    ((classifyParam p).status = some "Normal" ↔
      p.reference_low ≤ p.value ∧ p.value ≤ p.reference_high) :=
  classify_status_closed_interval _ _ (List.mem_singleton.mpr rfl) (by norm_num)

/-- C2: `classify_report_statuses` builds a new report from its input:
patient name, date and the parameter list's non-status fields are copied,
the status of every output parameter is populated, and the input itself is
left unchanged (the function is pure; the Python code deep-copies before
writing). -/
theorem classify_returns_independent_classified_copy
    (r : LabReport) (p : LabParam) :
    (classify_report_statuses r).patient_name = r.patient_name ∧
    (classify_report_statuses r).report_date = r.report_date ∧
    (classify_report_statuses r).parameters = r.parameters.map classifyParam ∧
    (classifyParam p).name = p.name ∧
    (classifyParam p).value = p.value ∧
    (classifyParam p).unit = p.unit ∧
    (classifyParam p).reference_low = p.reference_low ∧
    (classifyParam p).reference_high = p.reference_high ∧
    (classifyParam p).status.isSome = true := by
  refine ⟨rfl, rfl, rfl, ?_, ?_, ?_, ?_, ?_, ?_⟩ <;>
    · unfold classifyParam
      split_ifs <;> rfl

end LabAnalyzer

namespace LabAnalyzer

/-- Python's `round` (banker's rounding, half to even) to an integer, on
exact rational values. -/
def roundHalfEven (x : ℚ) : ℤ :=
  if x - ⌊x⌋ < 1/2 then ⌊x⌋
  else if 1/2 < x - ⌊x⌋ then ⌊x⌋ + 1
  else if ⌊x⌋ % 2 = 0 then ⌊x⌋ else ⌊x⌋ + 1

/-- Python's `round(x, n)` to `n` fractional digits. -/
def pyRound (x : ℚ) (n : ℕ) : ℚ := (roundHalfEven (x * 10 ^ n) : ℚ) / 10 ^ n

/-- One row of the `trends` list built by `analyze_trends`. -/
structure TrendEntry where
  name : String
  unit : String
  older_value : ℚ
  newer_value : ℚ
  absolute_change : ℚ
  percentage_change : Option ℚ
  direction : String
  older_status : String
  newer_status : String
  deriving Repr, DecidableEq

/-- The dict returned by `analyze_trends`. -/
structure TrendSummary where
  patient_name : String
  older_report_date : String
  newer_report_date : String
  trends : List TrendEntry
  only_in_older : List String
  only_in_newer : List String
  deriving Repr, DecidableEq

/-- The key set of `_build_param_map(report)`: the distinct parameter
names of a report. -/
def namesOf (r : LabReport) : List String :=
  (r.parameters.map LabParam.name).dedup

/-- Lookup in `_build_param_map(report)`: Python's dict comprehension keeps
the last parameter with a given name. -/
def lookupParam (r : LabReport) (name : String) : Option LabParam :=
  (r.parameters.filter (fun p => decide (p.name = name))).getLast?

/-- The body of the `for name in sorted(common_names)` loop of
`analyze_trends`. -/
def mkTrendEntry (name : String) (old_param new_param : LabParam) :
    TrendEntry :=
  let older_value := old_param.value
  let newer_value := new_param.value
  let absolute_change := pyRound (newer_value - older_value) 6
  { name := name
    unit := new_param.unit.getD (old_param.unit.getD "")
    older_value := older_value
    newer_value := newer_value
    absolute_change := absolute_change
    percentage_change :=
      if older_value ≠ 0 then some (pyRound (absolute_change / older_value * 100) 2)
      else none
    direction :=
      if absolute_change > 0 then "Increased"
      else if absolute_change < 0 then "Decreased"
      else "Unchanged"
    older_status := old_param.status.getD ""
    newer_status := new_param.status.getD "" }

/-- The function `analyze_trends`: set operations on the two key sets, then one
`TrendEntry` per common name in sorted order. -/
def analyze_trends (older_report newer_report : LabReport) : TrendSummary :=
  let older_names := namesOf older_report
  let newer_names := namesOf newer_report
  let common_sorted :=
    sortStrings (older_names.filter (fun a => decide (a ∈ newer_names)))
  let trends := common_sorted.filterMap (fun name =>
    match lookupParam older_report name, lookupParam newer_report name with
    | some old_param, some new_param => some (mkTrendEntry name old_param new_param)
    | _, _ => none)
  { patient_name := newer_report.patient_name.getD ""
    older_report_date := older_report.report_date.getD ""
    newer_report_date := newer_report.report_date.getD ""
    trends := trends
    only_in_older :=
      sortStrings (older_names.filter (fun a => decide (a ∉ newer_names)))
    only_in_newer :=
      sortStrings (newer_names.filter (fun a => decide (a ∉ older_names))) }

theorem mem_namesOf {r : LabReport} {a : String} :
    a ∈ namesOf r ↔ ∃ p ∈ r.parameters, p.name = a := by
  simp [namesOf]

theorem lookupParam_isSome {r : LabReport} {a : String} (h : a ∈ namesOf r) :
    (lookupParam r a).isSome = true := by
  rw [mem_namesOf] at h
  rcases h with ⟨p, hp, hn⟩
  rw [lookupParam, List.getLast?_isSome]
  intro hnil
  have : p ∈ r.parameters.filter (fun p => decide (p.name = a)) := by
    rw [List.mem_filter]
    exact ⟨hp, by simp [hn]⟩
  rw [hnil] at this
  exact absurd this (List.not_mem_nil p)

theorem mem_sortStrings {l : List String} {a : String} :
    a ∈ sortStrings l ↔ a ∈ l := by
  unfold sortStrings
  exact List.mem_insertionSort strLe

/-- The names of the produced trend entries are exactly the sorted common
names: the `filterMap` in `analyze_trends` never drops a common name. -/
theorem analyze_trends_names (older_report newer_report : LabReport) :
    ((analyze_trends older_report newer_report).trends.map TrendEntry.name)
      = sortStrings ((namesOf older_report).filter
          (fun a => decide (a ∈ namesOf newer_report))) := by
  unfold analyze_trends
  simp only []
  generalize hl :
    sortStrings ((namesOf older_report).filter
      (fun a => decide (a ∈ namesOf newer_report))) = l
  have hmem : ∀ a ∈ l, a ∈ namesOf older_report ∧ a ∈ namesOf newer_report := by
    intro a ha
    rw [← hl, mem_sortStrings, List.mem_filter] at ha
    exact ⟨ha.1, by simpa using ha.2⟩
  clear hl
  induction l with
  | nil => simp
  | cons b l ih =>
    have hb := hmem b (List.mem_cons_self b l)
    have hbo := lookupParam_isSome hb.1
    have hbn := lookupParam_isSome hb.2
    rcases Option.isSome_iff_exists.mp hbo with ⟨po, hpo⟩
    rcases Option.isSome_iff_exists.mp hbn with ⟨pn, hpn⟩
    simp only [List.filterMap_cons, hpo, hpn]
    simp only [mkTrendEntry, List.map_cons]
    refine congrArg (List.cons b) ?_
    exact ih (fun a ha => hmem a (List.mem_cons_of_mem b ha))

end LabAnalyzer

namespace LabAnalyzer

/-- C3: `only_in_older` holds exactly the names present in the older report
and absent from the newer one (symmetrically for `only_in_newer`), the
trend entries' names are exactly the common names, the three groups are
pairwise disjoint, and together they cover exactly the union of the two
reports' name sets. -/
theorem trend_name_partition (older_report newer_report : LabReport)
    (name : String) :
    (name ∈ (analyze_trends older_report newer_report).only_in_older ↔
      name ∈ namesOf older_report ∧ name ∉ namesOf newer_report) ∧
    (name ∈ (analyze_trends older_report newer_report).only_in_newer ↔
      name ∈ namesOf newer_report ∧ name ∉ namesOf older_report) ∧
    (name ∈ (analyze_trends older_report newer_report).trends.map TrendEntry.name ↔
      name ∈ namesOf older_report ∧ name ∈ namesOf newer_report) ∧
    ¬(name ∈ (analyze_trends older_report newer_report).trends.map TrendEntry.name ∧
      name ∈ (analyze_trends older_report newer_report).only_in_older) ∧
    ¬(name ∈ (analyze_trends older_report newer_report).trends.map TrendEntry.name ∧
      name ∈ (analyze_trends older_report newer_report).only_in_newer) ∧
    ¬(name ∈ (analyze_trends older_report newer_report).only_in_older ∧
      name ∈ (analyze_trends older_report newer_report).only_in_newer) ∧
    ((name ∈ namesOf older_report ∨ name ∈ namesOf newer_report) ↔
      (name ∈ (analyze_trends older_report newer_report).trends.map TrendEntry.name ∨
       name ∈ (analyze_trends older_report newer_report).only_in_older ∨
       name ∈ (analyze_trends older_report newer_report).only_in_newer)) := by
  have h1 : name ∈ (analyze_trends older_report newer_report).only_in_older ↔
      name ∈ namesOf older_report ∧ name ∉ namesOf newer_report := by
    simp [analyze_trends, mem_sortStrings, List.mem_filter]
  have h2 : name ∈ (analyze_trends older_report newer_report).only_in_newer ↔
      name ∈ namesOf newer_report ∧ name ∉ namesOf older_report := by
    simp [analyze_trends, mem_sortStrings, List.mem_filter]
  have h3 : name ∈ (analyze_trends older_report newer_report).trends.map TrendEntry.name ↔
      name ∈ namesOf older_report ∧ name ∈ namesOf newer_report := by
    rw [analyze_trends_names, mem_sortStrings, List.mem_filter]
    simp
  refine ⟨h1, h2, h3, ?_, ?_, ?_, ?_⟩
  · rw [h1, h3]; tauto
  · rw [h2, h3]; tauto
  · rw [h1, h2]; tauto
  · rw [h1, h2, h3]; tauto

/-- C5: the trends list is sorted ascending by parameter name in Python's
lexicographic string order, and `only_in_older` / `only_in_newer` are each
sorted lexicographically; since `analyze_trends` is a pure function,
identical inputs always yield this identical ordering. -/
theorem trend_output_sorted (older_report newer_report : LabReport) :
    List.Pairwise (fun e1 e2 => strLe e1.name e2.name)
      (analyze_trends older_report newer_report).trends ∧
    List.Pairwise strLe (analyze_trends older_report newer_report).only_in_older ∧
    List.Pairwise strLe (analyze_trends older_report newer_report).only_in_newer := by
  refine ⟨?_, ?_, ?_⟩
  · have hs : List.Pairwise strLe
        ((analyze_trends older_report newer_report).trends.map TrendEntry.name) := by
      rw [analyze_trends_names]
      exact List.sorted_insertionSort strLe _
    exact (List.pairwise_map).mp hs
  · exact List.sorted_insertionSort strLe _
  · exact List.sorted_insertionSort strLe _

/-- C4: for every produced trend entry, `percentage_change` is `none` iff
the older value is zero; otherwise it is
`round(absolute_change / older_value * 100, 2)`, with
`absolute_change = round(newer_value - older_value, 6)`. The guard makes
the computation total: no division is ever attempted when the older value
is zero. -/
theorem trend_percentage_change_guard (older_report newer_report : LabReport)
    (e : TrendEntry)
    (he : e ∈ (analyze_trends older_report newer_report).trends) :
    (e.percentage_change = none ↔ e.older_value = 0) ∧
    (e.older_value ≠ 0 →
      e.percentage_change
        = some (pyRound (e.absolute_change / e.older_value * 100) 2)) ∧
    e.absolute_change = pyRound (e.newer_value - e.older_value) 6 := by
  simp only [analyze_trends] at he
  rw [List.mem_filterMap] at he
  rcases he with ⟨a, ha, hfa⟩
  cases ho : lookupParam older_report a with
  | none =>
    rw [ho] at hfa
    simp at hfa
  | some old_param =>
    cases hn : lookupParam newer_report a with
    | none =>
      rw [ho, hn] at hfa
      simp at hfa
    | some new_param =>
      rw [ho, hn] at hfa
      simp only [Option.some_inj] at hfa
      subst hfa
      by_cases h0 : old_param.value = 0
      · simp [mkTrendEntry, h0]
      · simp [mkTrendEntry, h0]

/-- C10: the summary's `patient_name` comes from the newer report only
(defaulting to `""` when absent), the two dates come from their respective
reports (defaulting to `""`), and the older report's `patient_name` has no
influence on the output. -/
theorem trend_header_fields (older_report newer_report : LabReport)
    (pn : Option String) :
    (analyze_trends older_report newer_report).patient_name
        = newer_report.patient_name.getD "" ∧
    (analyze_trends older_report newer_report).older_report_date
        = older_report.report_date.getD "" ∧
    (analyze_trends older_report newer_report).newer_report_date
        = newer_report.report_date.getD "" ∧
    analyze_trends { older_report with patient_name := pn } newer_report
        = analyze_trends older_report newer_report :=
  ⟨rfl, rfl, rfl, rfl⟩

end LabAnalyzer

namespace LabAnalyzer

/-- Witness for C4 at Scenario B: a Glucose entry whose older value is 0
(so `percentage_change` is `None`) in a concrete report pair. -/
theorem trend_percentage_change_guard_witness :
    ((mkTrendEntry "Glucose"
        ⟨"Glucose", 0, some "mg/dL", 70, 100, none⟩
        ⟨"Glucose", 95, some "mg/dL", 70, 100, none⟩).percentage_change = none ↔
      (mkTrendEntry "Glucose"
        ⟨"Glucose", 0, some "mg/dL", 70, 100, none⟩
        ⟨"Glucose", 95, some "mg/dL", 70, 100, none⟩).older_value = 0) ∧
    ((mkTrendEntry "Glucose"
        ⟨"Glucose", 0, some "mg/dL", 70, 100, none⟩
        ⟨"Glucose", 95, some "mg/dL", 70, 100, none⟩).older_value ≠ 0 →
      (mkTrendEntry "Glucose"
        ⟨"Glucose", 0, some "mg/dL", 70, 100, none⟩
        ⟨"Glucose", 95, some "mg/dL", 70, 100, none⟩).percentage_change
        = some (pyRound
            ((mkTrendEntry "Glucose"
              ⟨"Glucose", 0, some "mg/dL", 70, 100, none⟩
              ⟨"Glucose", 95, some "mg/dL", 70, 100, none⟩).absolute_change /
             (mkTrendEntry "Glucose"
              ⟨"Glucose", 0, some "mg/dL", 70, 100, none⟩
              ⟨"Glucose", 95, some "mg/dL", 70, 100, none⟩).older_value * 100) 2)) ∧
    (mkTrendEntry "Glucose"
        ⟨"Glucose", 0, some "mg/dL", 70, 100, none⟩
        ⟨"Glucose", 95, some "mg/dL", 70, 100, none⟩).absolute_change
      = pyRound
          ((mkTrendEntry "Glucose"
              ⟨"Glucose", 0, some "mg/dL", 70, 100, none⟩
              ⟨"Glucose", 95, some "mg/dL", 70, 100, none⟩).newer_value -
           (mkTrendEntry "Glucose"
              ⟨"Glucose", 0, some "mg/dL", 70, 100, none⟩
              ⟨"Glucose", 95, some "mg/dL", 70, 100, none⟩).older_value) 6 :=
  trend_percentage_change_guard
    ⟨some "Akshay", some "2026-01-15",
      [⟨"Glucose", 0, some "mg/dL", 70, 100, none⟩]⟩
    ⟨some "Akshay", some "2026-02-20",
      [⟨"Glucose", 95, some "mg/dL", 70, 100, none⟩]⟩
    (mkTrendEntry "Glucose"
        ⟨"Glucose", 0, some "mg/dL", 70, 100, none⟩
        ⟨"Glucose", 95, some "mg/dL", 70, 100, none⟩)
    (List.mem_singleton.mpr rfl)

end LabAnalyzer

namespace RawClassify

/-- A scalar as stored in a raw report dict: a number or a string
(the two value shapes the classifier can meet). -/
inductive JVal where
  | num : ℚ → JVal
  | str : String → JVal
  deriving Repr, DecidableEq

/-- Failures of `classify_report_statuses` on a raw dict: `KeyError`
(missing field) for an absent key, `TypeError` (type mismatch) for an
unsupported comparison. -/
inductive PyError where
  | missingField : String → PyError
  | typeMismatch : PyError
  deriving Repr, DecidableEq

/-- Python's `param[key]`: raises `KeyError` when the key is absent. -/
def getField (v : Option JVal) (key : String) : Except PyError JVal :=
  match v with
  | none => .error (.missingField key)
  | some x => .ok x

/-- Python's `a > b` on report values: numbers compare numerically, two
strings compare lexicographically by code point, and a mixed comparison
raises `TypeError`. -/
def jvalGt (a b : JVal) : Except PyError Bool :=
  match a, b with
  | .num x, .num y => .ok (decide (y < x))
  | .str s, .str t => .ok (charListLt t.data s.data)
  | _, _ => .error .typeMismatch

/-- Python's `a < b` on report values. -/
def jvalLt (a b : JVal) : Except PyError Bool :=
  match a, b with
  | .num x, .num y => .ok (decide (x < y))
  | .str s, .str t => .ok (charListLt s.data t.data)
  | _, _ => .error .typeMismatch

/-- A raw input parameter: every field the classifier reads with
`param[...]` may be absent. -/
structure RawParam where
  name : Option JVal
  value : Option JVal
  unit : Option JVal
  reference_low : Option JVal
  reference_high : Option JVal
  status : Option JVal
  deriving Repr, DecidableEq

/-- A raw input report. -/
structure RawReport where
  patient_name : Option JVal
  report_date : Option JVal
  parameters : List RawParam
  deriving Repr, DecidableEq

/-- The loop body of `classify_report_statuses` on a raw parameter: fetch
`value`, `reference_low`, `reference_high` (each can raise `KeyError`),
then compare (`TypeError` on unsupported comparisons) and set `status`. -/
def classifyRawParam (p : RawParam) : Except PyError RawParam := do
  let value ← getField p.value "value"
  let reference_low ← getField p.reference_low "reference_low"
  let reference_high ← getField p.reference_high "reference_high"
  let gt ← jvalGt value reference_high
  if gt then
    return { p with status := some (.str "High") }
  else
    let lt ← jvalLt value reference_low
    if lt then
      return { p with status := some (.str "Low") }
    else
      return { p with status := some (.str "Normal") }

/-- The classification loop over the copied parameter list: the first
raising parameter aborts the whole call. -/
def classifyRawList : List RawParam → Except PyError (List RawParam)
  | [] => .ok []
  | p :: ps => do
    let q ← classifyRawParam p
    let qs ← classifyRawList ps
    return q :: qs

/-- The function `classify_report_statuses` on a raw report: all-or-nothing — an error
on any parameter propagates to the caller and no partial result is
produced; the input (deep-copied in Python, a pure value here) is left
unchanged. -/
def classify_report_statuses_raw (r : RawReport) : Except PyError RawReport :=
  (classifyRawList r.parameters).map (fun ps => { r with parameters := ps })

theorem classifyRawParam_missing {p : RawParam}
    (h : p.value = none ∨ p.reference_low = none ∨ p.reference_high = none) :
    ∃ key, classifyRawParam p = .error (.missingField key) := by
  rcases h with h | h | h
  · exact ⟨"value", by simp [classifyRawParam, getField, h, Bind.bind, Except.bind]⟩
  · cases hv : p.value with
    | none =>
      exact ⟨"value", by simp [classifyRawParam, getField, hv, Bind.bind, Except.bind]⟩
    | some v =>
      exact ⟨"reference_low",
        by simp [classifyRawParam, getField, hv, h, Bind.bind, Except.bind]⟩
  · cases hv : p.value with
    | none =>
      exact ⟨"value", by simp [classifyRawParam, getField, hv, Bind.bind, Except.bind]⟩
    | some v =>
      cases hl : p.reference_low with
      | none =>
        exact ⟨"reference_low",
          by simp [classifyRawParam, getField, hv, hl, Bind.bind, Except.bind]⟩
      | some lo =>
        exact ⟨"reference_high",
          by simp [classifyRawParam, getField, hv, hl, h, Bind.bind, Except.bind]⟩

theorem classifyRawList_error {l : List RawParam} {p : RawParam}
    (hp : p ∈ l) (he : ∃ e, classifyRawParam p = .error e) :
    ∃ err, classifyRawList l = .error err := by
  induction l with
  | nil => cases hp
  | cons q l ih =>
    rcases List.mem_cons.mp hp with rfl | hp'
    · rcases he with ⟨e, he⟩
      exact ⟨e, by simp [classifyRawList, he, Bind.bind, Except.bind]⟩
    · cases hq : classifyRawParam q with
      | error e => exact ⟨e, by simp [classifyRawList, hq, Bind.bind, Except.bind]⟩
      | ok v =>
        rcases ih hp' with ⟨err, herr⟩
        exact ⟨err, by simp [classifyRawList, hq, herr, Bind.bind, Except.bind]⟩

end RawClassify

namespace RawClassify

/-- C6 counterexample: a parameter whose `value`, `reference_low` and
`reference_high` are all (non-numeric) strings does NOT signal a
TypeMismatch error — Python compares the strings lexicographically and the
call succeeds, classifying the parameter `"Normal"`. -/
theorem classify_raw_nonnumeric_counterexample :
    classify_report_statuses_raw
      ⟨some (.str "A"), some (.str "2026-01-15"),
        [⟨some (.str "Hb"), some (.str "b"), none,
          some (.str "a"), some (.str "c"), none⟩]⟩
      = .ok
        ⟨some (.str "A"), some (.str "2026-01-15"),
          [⟨some (.str "Hb"), some (.str "b"), none,
            some (.str "a"), some (.str "c"), some (.str "Normal")⟩]⟩ := by
  rfl

/-- C6 (amended): a parameter missing `value`, `reference_low` or
`reference_high` makes the whole classification call signal an error to
the caller — the failing parameter itself raises a MissingField error —
with no partial result (the call's only outcome is the error) and the
input left unchanged (the call is pure; Python works on a deep copy). -/
theorem classify_raw_missing_field_is_fatal (r : RawReport)
    (h : ∃ p ∈ r.parameters,
      p.value = none ∨ p.reference_low = none ∨ p.reference_high = none) :
    (∃ err, classify_report_statuses_raw r = .error err) ∧
    ∀ p : RawParam,
      (p.value = none ∨ p.reference_low = none ∨ p.reference_high = none) →
      ∃ key, classifyRawParam p = .error (.missingField key) := by
  constructor
  · rcases h with ⟨p, hp, hmiss⟩
    rcases classifyRawParam_missing hmiss with ⟨key, hkey⟩
    rcases classifyRawList_error hp ⟨_, hkey⟩ with ⟨err, herr⟩
    exact ⟨err, by simp [classify_report_statuses_raw, herr, Except.map]⟩
  · intro p hmiss
    exact classifyRawParam_missing hmiss

/-- Witness for C6 (amended): a concrete report whose only parameter lacks
`value` makes the call fail. -/
theorem classify_raw_missing_field_is_fatal_witness :
    (∃ err, classify_report_statuses_raw
      ⟨some (.str "A"), none,
        [⟨some (.str "Hb"), none, none,
          some (.num 13), some (.num 17), none⟩]⟩ = .error err) ∧
    ∀ p : RawParam,
      (p.value = none ∨ p.reference_low = none ∨ p.reference_high = none) →
      ∃ key, classifyRawParam p = .error (.missingField key) :=
  classify_raw_missing_field_is_fatal
    ⟨some (.str "A"), none,
      [⟨some (.str "Hb"), none, none,
        some (.num 13), some (.num 17), none⟩]⟩
    ⟨⟨some (.str "Hb"), none, none, some (.num 13), some (.num 17), none⟩,
      List.mem_singleton.mpr rfl, Or.inl rfl⟩

end RawClassify

namespace RAG

/-- One step of the counting loop in `_MockEmbeddings._embed`:
`vec[ord(ch) % 128] += 1.0`. -/
def bumpSlot (vec : List ℚ) (ch : Char) : List ℚ :=
  vec.set (ch.toNat % 128) (vec.getD (ch.toNat % 128) 0 + 1)

/-- The character-count vector of `_MockEmbeddings._embed`: a 128-slot
vector accumulated over the (already lower-cased) characters. -/
def countVec (chars : List Char) : List ℚ :=
  chars.foldl bumpSlot (List.replicate 128 0)

/-- The method `_MockEmbeddings._embed`: lower-case the text, count characters per
`ord(ch) % 128` slot, then divide by `sum(vec) or 1.0` (the `or 1.0`
guards the empty text against a division by zero). -/
def mockEmbed (text : String) : List ℚ :=
  let vec := countVec (text.data.map Char.toLower)
  let total := if vec.sum = 0 then 1 else vec.sum
  vec.map (fun v => v / total)

theorem getD_set_self (l : List ℚ) (i : ℕ) (x : ℚ) (h : i < l.length) :
    (l.set i x).getD i 0 = x := by
  induction l generalizing i with
  | nil => simp at h
  | cons a as ih =>
    cases i with
    | zero => simp
    | succ j =>
      simp only [List.set, List.getD_cons_succ]
      exact ih j (by simpa using h)

theorem getD_set_ne (l : List ℚ) (i j : ℕ) (x : ℚ) (h : i ≠ j) :
    (l.set i x).getD j 0 = l.getD j 0 := by
  induction l generalizing i j with
  | nil => simp
  | cons a as ih =>
    cases i with
    | zero =>
      cases j with
      | zero => exact absurd rfl h
      | succ j2 => simp
    | succ i2 =>
      cases j with
      | zero => simp
      | succ j2 =>
        simp only [List.set, List.getD_cons_succ]
        exact ih i2 j2 (fun hc => h (by rw [hc]))

theorem sum_set_getD_add (l : List ℚ) (i : ℕ) (a : ℚ) (h : i < l.length) :
    (l.set i (l.getD i 0 + a)).sum = l.sum + a := by
  induction l generalizing i with
  | nil => simp at h
  | cons x xs ih =>
    cases i with
    | zero =>
      simp only [List.set, List.getD_cons_zero, List.sum_cons]
      ring
    | succ j =>
      simp only [List.set, List.getD_cons_succ, List.sum_cons]
      rw [ih j (by simpa using h)]
      ring

theorem bumpSlot_length (vec : List ℚ) (ch : Char) (h : vec.length = 128) :
    (bumpSlot vec ch).length = 128 := by
  simp [bumpSlot, h]

theorem bumpSlot_sum (vec : List ℚ) (ch : Char) (h : vec.length = 128) :
    (bumpSlot vec ch).sum = vec.sum + 1 := by
  apply sum_set_getD_add
  rw [h]
  exact Nat.mod_lt _ (by norm_num)

theorem foldl_bumpSlot_length :
    ∀ (chars : List Char) (vec : List ℚ), vec.length = 128 →
      (chars.foldl bumpSlot vec).length = 128 := by
  intro chars
  induction chars with
  | nil => intro vec h; simpa using h
  | cons c cs ih =>
    intro vec h
    simp only [List.foldl_cons]
    exact ih _ (bumpSlot_length vec c h)

theorem foldl_bumpSlot_sum :
    ∀ (chars : List Char) (vec : List ℚ), vec.length = 128 →
      (chars.foldl bumpSlot vec).sum = vec.sum + chars.length := by
  intro chars
  induction chars with
  | nil => intro vec h; simp
  | cons c cs ih =>
    intro vec h
    simp only [List.foldl_cons, List.length_cons]
    rw [ih _ (bumpSlot_length vec c h), bumpSlot_sum vec c h]
    push_cast
    ring

theorem foldl_bumpSlot_getD (i : ℕ) (hi : i < 128) :
    ∀ (chars : List Char) (vec : List ℚ), vec.length = 128 →
      (chars.foldl bumpSlot vec).getD i 0
        = vec.getD i 0
          + ((chars.filter (fun ch => decide (ch.toNat % 128 = i))).length : ℚ) := by
  intro chars
  induction chars with
  | nil => intro vec h; simp
  | cons c cs ih =>
    intro vec h
    simp only [List.foldl_cons]
    rw [ih _ (bumpSlot_length vec c h)]
    by_cases hc : c.toNat % 128 = i
    · have hset : (bumpSlot vec c).getD i 0 = vec.getD i 0 + 1 := by
        rw [bumpSlot, hc]
        exact getD_set_self _ _ _ (by rw [h]; exact hi)
      rw [hset, List.filter_cons_of_pos (by simpa using hc)]
      simp only [List.length_cons]
      push_cast
      ring
    · have hset : (bumpSlot vec c).getD i 0 = vec.getD i 0 := by
        rw [bumpSlot]
        exact getD_set_ne _ _ _ _ hc
      rw [hset, List.filter_cons_of_neg (by simpa using hc)]

theorem getD_replicate_zero (n i : ℕ) :
    (List.replicate n (0 : ℚ)).getD i 0 = 0 := by
  induction n generalizing i with
  | zero => simp
  | succ m ih =>
    cases i with
    | zero => simp [List.replicate]
    | succ j => simp [List.replicate, ih j]

theorem sum_map_div (l : List ℚ) (c : ℚ) :
    (l.map (fun v => v / c)).sum = l.sum / c := by
  induction l with
  | nil => simp
  | cons x xs ih => simp [ih, add_div]

theorem getD_map_div (l : List ℚ) (c : ℚ) (i : ℕ) (h : i < l.length) :
    (l.map (fun v => v / c)).getD i 0 = l.getD i 0 / c := by
  induction l generalizing i with
  | nil => simp at h
  | cons x xs ih =>
    cases i with
    | zero => simp
    | succ j =>
      simp only [List.map_cons, List.getD_cons_succ]
      exact ih j (by simpa using h)

end RAG

namespace RAG

/-- C8: the deterministic offline embedding maps any non-empty text to the
128-dimensional vector of per-slot character counts (slot `ord(ch) % 128`
over the lower-cased text) L1-normalized by the total character count, so
its components sum to 1; the empty text maps to the zero vector, and the
`or 1.0` guard means no division by zero ever occurs. -/
theorem mockEmbed_spec (text : String) (h : text ≠ "") :
    (mockEmbed text).length = 128 ∧
    (mockEmbed text).sum = 1 ∧
    (∀ i, i < 128 →
      (mockEmbed text).getD i 0
        = (((text.data.map Char.toLower).filter
              (fun ch => decide (ch.toNat % 128 = i))).length : ℚ)
          / (text.data.length : ℚ)) ∧
    mockEmbed "" = List.replicate 128 0 := by
  have hdata : text.data ≠ [] := by
    intro hd
    apply h
    cases text with
    | mk l => exact congrArg String.mk hd
  have hcne : text.data.map Char.toLower ≠ [] := by
    simpa using hdata
  have hrep : (List.replicate 128 (0 : ℚ)).length = 128 := by simp
  have hvlen : (countVec (text.data.map Char.toLower)).length = 128 :=
    foldl_bumpSlot_length _ _ hrep
  have hsum : (countVec (text.data.map Char.toLower)).sum
      = ((text.data.map Char.toLower).length : ℚ) := by
    rw [countVec, foldl_bumpSlot_sum _ _ hrep]
    simp
  have hq : (((text.data.map Char.toLower).length : ℚ)) ≠ 0 := by
    rw [Nat.cast_ne_zero]
    intro h0
    exact hcne (List.length_eq_zero.mp h0)
  have munfold : mockEmbed text
      = (countVec (text.data.map Char.toLower)).map
          (fun v => v / (((text.data.map Char.toLower).length : ℚ))) := by
    simp only [mockEmbed]
    rw [hsum, if_neg hq]
  have hclen : (text.data.map Char.toLower).length = text.data.length := by
    simp
  refine ⟨?_, ?_, ?_, ?_⟩
  · rw [munfold]
    simpa using hvlen
  · rw [munfold, sum_map_div, hsum, div_self hq]
  · intro i hi
    rw [munfold, getD_map_div _ _ i (by rw [hvlen]; exact hi)]
    rw [countVec, foldl_bumpSlot_getD i hi _ _ hrep, getD_replicate_zero,
      zero_add, hclen]
  · simp [mockEmbed, countVec, List.sum_replicate, List.map_replicate]

/-- Witness for C8 at the concrete text `"a"`. -/
theorem mockEmbed_spec_witness :
    (mockEmbed "a").length = 128 ∧
    (mockEmbed "a").sum = 1 ∧
    (∀ i, i < 128 →
      (mockEmbed "a").getD i 0
        = (((("a" : String).data.map Char.toLower).filter
              (fun ch => decide (ch.toNat % 128 = i))).length : ℚ)
          / ((("a" : String).data.length : ℚ))) ∧
    mockEmbed "" = List.replicate 128 0 :=
  mockEmbed_spec "a" (by decide)

end RAG

namespace RAG

/-- Python's `str.strip()`: remove leading and trailing whitespace. -/
def stripStr (s : String) : String :=
  ⟨((s.data.dropWhile Char.isWhitespace).reverse.dropWhile
      Char.isWhitespace).reverse⟩

/-- A parameter as `retrieve_for_abnormal_params` reads it: only `name`
and `status` are accessed, `status` through `.get(...)`. -/
structure RagParam where
  name : String
  status : Option String
  deriving Repr, DecidableEq

/-- The loop body of `retrieve_for_abnormal_params` for one abnormal
parameter: build the query, run `similarity_search(query, k=2)`, and merge
the stripped chunk texts into the accumulator with first-seen
deduplication; the second component records the issued queries. -/
def retrieveStep (search : String → ℕ → List String)
    (acc : List String × List String) (p : RagParam) :
    List String × List String :=
  let query := p.status.getD "" ++ " " ++ p.name
  let docs := search query 2
  (docs.foldl (fun comb doc =>
      let content := stripStr doc
      if content ∈ comb then comb else comb ++ [content]) acc.1,
   acc.2 ++ [query])

/-- The method `RAGPipeline.retrieve_for_abnormal_params`, instrumented with the list
of queries issued to the vector store (second component) so that "performs
no index query" is visible in the embedding; `search` stands for
`self._vector_store.similarity_search`, returning the chunk texts. -/
def retrieve_for_abnormal_params (search : String → ℕ → List String)
    (parameters : List RagParam) : String × List String :=
  let abnormal := parameters.filter (fun p =>
    decide (p.status = some "High" ∨ p.status = some "Low"))
  if abnormal = [] then
    ("All parameters are within normal range.", [])
  else
    let result := abnormal.foldl (retrieveStep search) ([], [])
    (String.intercalate "\n\n" result.1, result.2)

theorem foldl_retrieveStep_queries (search : String → ℕ → List String) :
    ∀ (l : List RagParam) (acc : List String × List String),
      (l.foldl (retrieveStep search) acc).2
        = acc.2 ++ l.map (fun p => p.status.getD "" ++ " " ++ p.name) := by
  intro l
  induction l with
  | nil => intro acc; simp
  | cons p ps ih =>
    intro acc
    simp only [List.foldl_cons, List.map_cons]
    rw [ih]
    simp [retrieveStep]

end RAG

namespace RAG

/-- C7 counterexample: with one abnormal parameter, if the vector store
returns a chunk whose text is exactly the sentinel sentence, the function
returns the sentinel string even though it did query the index — so "does
not return the sentinel" does not hold for every abnormal input. -/
theorem retrieve_sentinel_counterexample :
    (retrieve_for_abnormal_params
        (fun _ _ => ["All parameters are within normal range."])
        [⟨"X", some "High"⟩]).1
      = "All parameters are within normal range." ∧
    [(⟨"X", some "High"⟩ : RagParam)].filter (fun p =>
        decide (p.status = some "High" ∨ p.status = some "Low")) ≠ [] := by
  constructor
  · rfl
  · decide

/-- C7 (amended): with no abnormal parameter the function returns the fixed
sentinel and issues no index query; with at least one abnormal parameter it
issues exactly one query per abnormal parameter (in particular at least
one), the result being the deduplicated concatenation of the retrieved
chunks — which is not guaranteed to differ from the sentinel text itself. -/
theorem retrieve_fast_path_and_queries (search : String → ℕ → List String)
    (parameters : List RagParam) :
    (parameters.filter (fun p =>
        decide (p.status = some "High" ∨ p.status = some "Low")) = [] →
      retrieve_for_abnormal_params search parameters
        = ("All parameters are within normal range.", [])) ∧
    (parameters.filter (fun p =>
        decide (p.status = some "High" ∨ p.status = some "Low")) ≠ [] →
      (retrieve_for_abnormal_params search parameters).2
        = (parameters.filter (fun p =>
            decide (p.status = some "High" ∨ p.status = some "Low"))).map
            (fun p => p.status.getD "" ++ " " ++ p.name) ∧
      (retrieve_for_abnormal_params search parameters).2 ≠ []) := by
  constructor
  · intro he
    simp only [retrieve_for_abnormal_params]
    rw [if_pos he]
  · intro hne
    have h2 : (retrieve_for_abnormal_params search parameters).2
        = (parameters.filter (fun p =>
            decide (p.status = some "High" ∨ p.status = some "Low"))).map
            (fun p => p.status.getD "" ++ " " ++ p.name) := by
      simp only [retrieve_for_abnormal_params]
      rw [if_neg hne]
      rw [foldl_retrieveStep_queries]
      simp
    refine ⟨h2, ?_⟩
    rw [h2]
    simpa using hne
/-- Witness for C7 (amended): the sentinel fast path on an all-normal
report, and a non-empty query list on a report with one Low parameter. -/
theorem retrieve_fast_path_and_queries_witness :
    (retrieve_for_abnormal_params (fun _ _ => []) [⟨"Hb", some "Normal"⟩]
        = ("All parameters are within normal range.", [])) ∧
    (retrieve_for_abnormal_params (fun _ _ => []) [⟨"Hb", some "Low"⟩]).2 ≠ [] :=
  ⟨(retrieve_fast_path_and_queries (fun _ _ => []) [⟨"Hb", some "Normal"⟩]).1
      (by decide),
   ((retrieve_fast_path_and_queries (fun _ _ => []) [⟨"Hb", some "Low"⟩]).2
      (by decide)).2⟩

end RAG

namespace RAG

/-- The method `RAGPipeline._load_text`: `open(self._knowledge_file).read()`. A
missing or unreadable file raises `IOError`, modelled as the error case;
`fs` models the file system as a partial map from path to content. -/
def load_text (fs : String → Option String) (knowledge_file : String) :
    Except String String :=
  match fs knowledge_file with
  | some text => .ok text
  | none => .error ("cannot read file: " ++ knowledge_file)

/-- The method `RAGPipeline._build_index` after the text is loaded: split into chunks
(the splitter stands for the external `RecursiveCharacterTextSplitter`)
and embed each chunk with the deterministic mock embeddings. -/
def build_index (splitter : String → List String) (raw_text : String) :
    List (String × List ℚ) :=
  (splitter raw_text).map (fun c => (c, mockEmbed c))

/-- The constructed pipeline object: retrieval configuration plus the
FAISS store contents (chunk text and embedding vector). -/
structure RAGPipeline where
  top_k : ℕ
  knowledge_file : String
  vector_store : List (String × List ℚ)

/-- The constructor `RAGPipeline.__init__` in mock-embedding mode: nothing catches the
load/build exception, so construction either propagates the error to the
caller or yields a pipeline whose store is built from the file's text. -/
def RAGPipeline.init (fs : String → Option String)
    (splitter : String → List String) (knowledge_file : String)
    (top_k : ℕ) : Except String RAGPipeline :=
  match load_text fs knowledge_file with
  | .error e => .error e
  | .ok raw_text => .ok ⟨top_k, knowledge_file, build_index splitter raw_text⟩

/-- C9: when the knowledge file is missing, pipeline construction fails
with an error raised out of the constructor; and any constructor call that
does return a pipeline got the file's actual text and built the index from
it — construction can never complete silently with an index that does not
reflect the knowledge file, so no reader observes a served-but-empty
index. -/
theorem rag_init_fails_loudly (fs fs2 : String → Option String)
    (splitter : String → List String) (knowledge_file : String)
    (top_k : ℕ) (h : fs knowledge_file = none) :
    (∃ e, RAGPipeline.init fs splitter knowledge_file top_k
        = Except.error e) ∧
    (∀ p, RAGPipeline.init fs2 splitter knowledge_file top_k
        = Except.ok p →
      ∃ text, fs2 knowledge_file = some text ∧
        p.vector_store = build_index splitter text ∧
        p.top_k = top_k ∧ p.knowledge_file = knowledge_file) := by
  constructor
  · refine ⟨"cannot read file: " ++ knowledge_file, ?_⟩
    simp [RAGPipeline.init, load_text, h]
  · intro p hp
    cases hf : fs2 knowledge_file with
    | none => simp [RAGPipeline.init, load_text, hf] at hp
    | some text =>
      refine ⟨text, rfl, ?_⟩
      simp only [RAGPipeline.init, load_text, hf] at hp
      rw [← Except.ok.inj hp]
      exact ⟨rfl, rfl, rfl⟩

/-- Witness for C9: a file system with no readable file makes construction
fail; with the file present the constructed store reflects its text. -/
theorem rag_init_fails_loudly_witness :
    (∃ e, RAGPipeline.init (fun _ => none) (fun t => [t])
        "medical_knowledge.txt" 4 = Except.error e) ∧
    (∀ p, RAGPipeline.init (fun _ => some "ldl facts") (fun t => [t])
        "medical_knowledge.txt" 4 = Except.ok p →
      ∃ text, (fun _ : String => some "ldl facts") "medical_knowledge.txt"
          = some text ∧
        p.vector_store = build_index (fun t => [t]) text ∧
        p.top_k = 4 ∧ p.knowledge_file = "medical_knowledge.txt") :=
  rag_init_fails_loudly (fun _ => none) (fun _ => some "ldl facts")
    (fun t => [t]) "medical_knowledge.txt" 4 rfl

end RAG
